import Mathlib

/-!
Shallow embedding of the codebase ingestion and context-packing pipeline of
`enhanced_server.py` (the enhanced Claude-Gemini MCP server).

The pipeline scans a directory tree, filters files by hidden-name,
deny-list, extension, emptiness and size rules, scores each surviving file,
sorts the candidates by descending relevance score (stably), greedily
selects a prefix that fits a token budget, and serializes the selection
into one structured context document.

The directory walk (`Path.rglob`) is modelled as a list of `FSEntry`
values in encounter order; the pluggable tokenizer (tiktoken when
available, a character-count estimator otherwise) is a function parameter
`tok`; relevance scores are modelled in `ℚ` (the Python floats are products
of small decimal multipliers, and every claim below concerns which
multipliers are applied and how the resulting scores order files, not
floating-point rounding).
-/

namespace EnhancedServer

/-- Checks whether the character list `ns` occurs at the head of `hs`
(helper used to model Python substring membership). -/
def matchesAt : List Char → List Char → Bool
  | [], _ => true
  | _ :: _, [] => false
  | n :: ns, h :: hs => n == h && matchesAt ns hs

/-- Python `needle in hay` on strings: `needle` occurs as a contiguous
substring of `hay`. -/
def strContains (hay needle : String) : Bool :=
  (List.range (hay.toList.length + 1)).any (fun i => matchesAt needle.toList (hay.toList.drop i))

/-- Python `s.startswith(p)`. -/
def strStartsWith (s p : String) : Bool := matchesAt p.toList s.toList

/-- Python `s.endswith(p)`. -/
def strEndsWith (s p : String) : Bool := matchesAt p.toList.reverse s.toList.reverse

/-- Python `s.lower()` (character-wise case folding; the strings it is
applied to are ASCII extensions and filenames). -/
def strToLower (s : String) : String := String.mk (s.toList.map Char.toLower)

/-- Splits a character list at every occurrence of the separator. -/
def splitOnChar (sep : Char) : List Char → List (List Char)
  | [] => [[]]
  | c :: cs =>
    let rest := splitOnChar sep cs
    if c == sep then [] :: rest
    else
      match rest with
      | [] => [[c]]
      | r :: rs => (c :: r) :: rs

/-- Final component of a slash-separated path: Python `Path(p).name`. -/
def pathName (p : String) : String := String.mk ((splitOnChar '/' p.toList).getLastD [])

/-- Index of the last dot in a character list, if any. -/
def lastDotIdx (cs : List Char) : Option Nat :=
  (List.range cs.length).foldl (fun acc i => if cs.getD i ' ' == '.' then some i else acc) none

/-- Python `Path(p).suffix`: the extension of the final path component
including the dot; empty when there is no dot, when the only dot leads the
name (hidden files), or when the dot is last. -/
def pathSuffix (p : String) : String :=
  let n := (pathName p).toList
  match lastDotIdx n with
  | some i => if 0 < i ∧ i + 1 < n.length then String.mk (n.drop i) else ""
  | none => ""

/-- File extensions included in a scan (`CodebaseIngestion.CODE_EXTENSIONS`;
the source lists `.tf` twice inside a set literal, hence once here). -/
def CODE_EXTENSIONS : List String :=
  [".py", ".js", ".ts", ".jsx", ".tsx", ".java", ".cpp", ".c", ".h",
   ".cs", ".php", ".rb", ".go", ".rs", ".swift", ".kt", ".scala",
   ".html", ".css", ".scss", ".vue", ".svelte", ".md", ".yml", ".yaml",
   ".json", ".xml", ".sql", ".sh", ".dockerfile", ".tf"]

/-- Path substrings that cause a file to be skipped
(`CodebaseIngestion.SKIP_PATTERNS`; matched by plain substring containment
against the relative path, exactly as `pattern in str(relative_path)`). -/
def SKIP_PATTERNS : List String :=
  ["node_modules", ".git", "__pycache__", ".venv", "venv", "dist",
   "build", ".next", ".nuxt", "target", "bin", "obj", ".idea",
   ".vscode", "coverage", ".pytest_cache", ".mypy_cache",
   "*.lock", "package-lock.json", "yarn.lock", "*.log"]

/-- Fallback branch of `CodebaseIngestion.count_tokens` (tiktoken not
available): Python `len(text) // 4`, integer division of the character
count by four. The exact tiktoken encoder is an external collaborator and
enters the embedding only through the tokenizer parameter `tok` below. -/
def count_tokens (text : String) : Nat := text.length / 4

/-- Extension-to-language table of `CodebaseIngestion.get_language`. -/
def language_map : List (String × String) :=
  [(".py", "python"), (".js", "javascript"), (".ts", "typescript"),
   (".jsx", "react"), (".tsx", "react-ts"), (".java", "java"),
   (".cpp", "cpp"), (".c", "c"), (".h", "c-header"),
   (".cs", "csharp"), (".php", "php"), (".rb", "ruby"),
   (".go", "go"), (".rs", "rust"), (".swift", "swift"),
   (".kt", "kotlin"), (".scala", "scala"), (".html", "html"),
   (".css", "css"), (".scss", "scss"), (".vue", "vue"),
   (".svelte", "svelte"), (".md", "markdown"), (".yml", "yaml"),
   (".yaml", "yaml"), (".json", "json"), (".xml", "xml"),
   (".sql", "sql"), (".sh", "bash"), (".dockerfile", "docker"),
   (".tf", "terraform")]

/-- `CodebaseIngestion.get_language`: language from the lower-cased file
extension, `unknown` for unrecognized extensions. -/
def get_language (file_path : String) : String :=
  (language_map.lookup (strToLower (pathSuffix file_path))).getD "unknown"

/-- Language-importance table of `calculate_relevance_score`
(`language_weights`): every weight of the source is a decimal with one
digit after the point, recorded here as its numerator in tenths
(`1.2` as `12`, `0.5` as `5`, and so on). -/
def language_weights : List (String × Nat) :=
  [("python", 12), ("javascript", 12), ("typescript", 13),
   ("java", 12), ("cpp", 11), ("go", 12), ("rust", 12),
   ("css", 8), ("html", 7), ("json", 6), ("yaml", 5)]

/-- Language multiplier in tenths: `language_weights.get(language, 1.0)`. -/
def langFactorT (language : String) : Nat :=
  (language_weights.lookup language).getD 10

/-- Directory-importance multiplier of `calculate_relevance_score` in
tenths (the three `any(... in path ...)` checks, in source order). -/
def dirFactorT (path : String) : Nat :=
  if ["src/", "lib/", "core/", "app/"].any (fun d => strContains path d) then 13
  else if ["test/", "tests/", "docs/", "doc/"].any (fun d => strContains path d) then 7
  else if ["config/", "configs/", "settings/"].any (fun d => strContains path d) then 6
  else 10

/-- File-size multiplier of `calculate_relevance_score` in tenths, with
the source branch order kept: `tokens > 5000` is tested before
`tokens > 10000`. -/
def sizeFactorT (tokens : Nat) : Nat :=
  if tokens < 100 then 11
  else if tokens > 5000 then 8
  else if tokens > 10000 then 6
  else 10

/-- Filename-priority multiplier of `calculate_relevance_score` in tenths:
entry-point names get 1.5, test-convention names get 0.7. -/
def nameFactorT (path : String) : Nat :=
  let filename := strToLower (pathName path)
  if ["main.py", "index.js", "app.py", "server.py", "main.go"].contains filename then 15
  else if strStartsWith filename "test_" || strEndsWith filename "_test.py" then 7
  else 10

/-- Language multiplier as the rational of the source (`1.2`, `0.5`, ...). -/
def langFactor (language : String) : ℚ := mkRat (langFactorT language) 10

/-- Directory multiplier as the rational of the source. -/
def dirFactor (path : String) : ℚ := mkRat (dirFactorT path) 10

/-- Size multiplier as the rational of the source. -/
def sizeFactor (tokens : Nat) : ℚ := mkRat (sizeFactorT tokens) 10

/-- Filename multiplier as the rational of the source. -/
def nameFactor (path : String) : ℚ := mkRat (nameFactorT path) 10

/-- `CodebaseIngestion.calculate_relevance_score`: base score 1.0 scaled by
the language, directory, size and filename multipliers in source order
(arguments are the three fields of the file dict the function reads). The
exact product of the four decimal multipliers is formed over `ℚ` with the
common denominator 10000; `calculate_relevance_score_eq` below proves this
equal to the staged product of the four rational factors. -/
def calculate_relevance_score (relative_path language : String) (tokens : Nat) : ℚ :=
  mkRat (1 * langFactorT language * dirFactorT relative_path * sizeFactorT tokens
    * nameFactorT relative_path) 10000

/-- One entry yielded by the directory walk (`project_path.rglob`), in
encounter order: its path relative to the scan root, whether it is a
directory, its text content as read with permissive decoding, its
modification time, and whether opening and reading it succeeds (the
try/except of the source, which skips the file on failure). -/
structure FSEntry where
  relative_path : String
  isDir : Bool := false
  content : String := ""
  mtime : Nat := 0
  readOk : Bool := true
deriving Repr, DecidableEq

/-- The per-file dict built by `scan_codebase` (the source also declares a
`FileInfo` dataclass with these fields minus `relative_path`). -/
structure FileInfo where
  path : String
  relative_path : String
  content : String
  tokens : Nat
  size : Nat
  modified : Nat
  language : String
  relevance_score : ℚ
deriving Repr, DecidableEq

/-- Conjunction of the skip checks of `scan_codebase`, in source order: not
a directory, final name component not hidden, no deny-listed substring in
the relative path, extension in the allow-list, readable, stripped content
non-empty, and at most 50,000 tokens. -/
def keepFile (tok : String → Nat) (e : FSEntry) : Bool :=
  !e.isDir && !(strStartsWith (pathName e.relative_path) ".")
    && !(SKIP_PATTERNS.any (fun p => strContains e.relative_path p))
    && CODE_EXTENSIONS.contains (strToLower (pathSuffix e.relative_path))
    && e.readOk
    && e.content.toList.any (fun c => !c.isWhitespace)
    && decide (tok e.content ≤ 50000)

/-- The file dict `scan_codebase` builds for one surviving entry. -/
def mkFileInfo (tok : String → Nat) (root : String) (e : FSEntry) : FileInfo :=
  let path := root ++ "/" ++ e.relative_path
  let tokens := tok e.content
  let language := get_language path
  { path := path
    relative_path := e.relative_path
    content := e.content
    tokens := tokens
    size := e.content.length
    modified := e.mtime
    language := language
    relevance_score := calculate_relevance_score e.relative_path language tokens }

/-- The `files_info` list of `scan_codebase`: every walk entry that passes
all filters, as a file record, in encounter order. -/
def files_info (tok : String → Nat) (root : String) (entries : List FSEntry) : List FileInfo :=
  (entries.filter (keepFile tok)).map (mkFileInfo tok root)

/-- The sort of `scan_codebase`
(`files_info.sort(key=relevance_score, reverse=True)`): a stable sort by
descending relevance score, modelled by insertion sort with the relation
that places a file before every file of strictly smaller score and after
earlier files of equal score. -/
def sortByScoreDesc (l : List FileInfo) : List FileInfo :=
  l.insertionSort (fun a b => b.relevance_score ≤ a.relevance_score)

/-- The selection loop of `scan_codebase`: accept candidates in order while
the running total stays within the budget, and stop at the first candidate
that does not fit. Returns the selected files and the used token total. -/
def greedySelect (max_tokens : Nat) : List FileInfo → Nat → List FileInfo × Nat
  | [], used => ([], used)
  | f :: fs, used =>
    if used + f.tokens ≤ max_tokens then
      let r := greedySelect max_tokens fs (used + f.tokens)
      (f :: r.1, r.2)
    else ([], used)

/-- The result dict of `scan_codebase`. -/
structure ScanResult where
  files : List FileInfo
  total_tokens : Nat
  total_files : Nat
  scanned_files : Nat
  project_path : String
deriving Repr, DecidableEq

/-- `CodebaseIngestion.scan_codebase`: filter and record every surviving
walk entry, sort by descending relevance score, then greedily select a
budget-fitting prefix. -/
def scan_codebase (tok : String → Nat) (root : String) (entries : List FSEntry)
    (max_tokens : Nat) : ScanResult :=
  let candidates := sortByScoreDesc (files_info tok root entries)
  let sel := greedySelect max_tokens candidates 0
  { files := sel.1
    total_tokens := sel.2
    total_files := sel.1.length
    scanned_files := (files_info tok root entries).length
    project_path := root }

/-- One `context += ...` block of
`ContextManager.create_codebase_context`, carrying the data the source
interpolates into it; the serialized document is the concatenation of the
rendered chunks in list order. -/
inductive Chunk
  | header (project_path : String) (total_files scanned_files total_tokens : Nat)
  | treeHeader
  | treeLine (f : FileInfo)
  | moreLine (omitted : Nat)
  | contentsHeader
  | fileBlock (f : FileInfo)
  | footer
deriving Repr, DecidableEq

/-- `ContextManager.create_codebase_context` as its sequence of appended
blocks: overview header, file-tree header, one tree line per file of the
first twenty, one omitted-count line exactly when more than twenty files
were selected, the contents header, one content block per selected file in
order, and the fixed instructional footer last. -/
def contextChunks (d : ScanResult) : List Chunk :=
  [Chunk.header d.project_path d.total_files d.scanned_files d.total_tokens, Chunk.treeHeader]
    ++ (d.files.take 20).map Chunk.treeLine
    ++ (if d.files.length > 20 then [Chunk.moreLine (d.files.length - 20)] else [])
    ++ [Chunk.contentsHeader]
    ++ d.files.map Chunk.fileBlock
    ++ [Chunk.footer]

/-- Recognizes a file-tree entry chunk. -/
def isTreeLine : Chunk → Bool
  | Chunk.treeLine _ => true
  | _ => false

/-- Recognizes the omitted-files summary chunk. -/
def isMoreLine : Chunk → Bool
  | Chunk.moreLine _ => true
  | _ => false

/-- Recognizes a per-file content chunk. -/
def isFileBlock : Chunk → Bool
  | Chunk.fileBlock _ => true
  | _ => false

/-- The three module-level globals of the server that hold the current
session (`current_codebase_context`, `current_project_path`,
`current_codebase_data`). -/
structure ServerState where
  current_codebase_context : Option (List Chunk)
  current_project_path : Option String
  current_codebase_data : Option ScanResult
deriving Repr, DecidableEq

/-- Outcome of the `load_codebase` tool: either the input error reported
for a non-existent project path, or a successful load. -/
inductive LoadOutcome
  | inputError (project_path : String)
  | loaded (data : ScanResult)
deriving Repr, DecidableEq

/-- The `load_codebase` branch of `handle_tool_call`: when
`os.path.exists(project_path)` fails, only the error text is produced and
the globals are not assigned; otherwise the codebase is scanned and all
three globals are replaced by the fresh scan. `pathExists` models the
`os.path.exists` collaborator, `entries` the directory walk under the
path. -/
def handle_load_codebase (pathExists : Bool) (tok : String → Nat) (entries : List FSEntry)
    (project_path : String) (max_tokens : Nat) (st : ServerState) : LoadOutcome × ServerState :=
  if pathExists then
    let data := scan_codebase tok project_path entries max_tokens
    (LoadOutcome.loaded data,
      { current_codebase_context := some (contextChunks data)
        current_project_path := some project_path
        current_codebase_data := some data })
  else
    (LoadOutcome.inputError project_path, st)

/-- Tokenizer instance used by the concrete scenario of the spec, which
stipulates token counts rather than file contents: it assigns 100 tokens
per content character, so the two 8-character files count 800 tokens and
the 2-character file counts 200. -/
def scenario_tok : String → Nat := fun s => 100 * s.length

/-- Directory walk of the concrete scenario of the spec: `src/app.py`
(800 tokens), `tests/test_app.py` (800 tokens), `README.md` (200 tokens),
together with the two directories the walk also yields. -/
def scenario_entries : List FSEntry :=
  [{ relative_path := "src", isDir := true },
   { relative_path := "src/app.py", content := "aaaaaaaa" },
   { relative_path := "tests", isDir := true },
   { relative_path := "tests/test_app.py", content := "bbbbbbbb" },
   { relative_path := "README.md", content := "cc" }]

/-- The scenario scan at `max_tokens = 1000`. -/
def scenario_scan : ScanResult := scan_codebase scenario_tok "/proj" scenario_entries 1000

/-- Directory walk containing a hidden directory with a non-hidden Python
file inside it. -/
def hidden_entries : List FSEntry :=
  [{ relative_path := ".hidden", isDir := true },
   { relative_path := ".hidden/util.py", content := "x = 1\n" }]

/-- A minimal surviving walk entry, used to instantiate the filter
completeness theorem at a concrete scan. -/
def witness_entry : FSEntry := { relative_path := "a.py", content := "x = 1\n" }

/-- The file record the scan builds for `witness_entry`. -/
def witness_file : FileInfo := mkFileInfo count_tokens "/w" witness_entry

/-! ## Theorems -/

/-- The relevance score is the four-stage product `1.0 * language weight *
directory weight * size weight * filename weight` over `ℚ`, exactly as the
source multiplies it up stage by stage. -/
theorem calculate_relevance_score_eq (relative_path language : String) (tokens : Nat) :
    calculate_relevance_score relative_path language tokens
      = 1 * langFactor language * dirFactor relative_path * sizeFactor tokens
        * nameFactor relative_path := by
  simp only [calculate_relevance_score, langFactor, dirFactor, sizeFactor, nameFactor,
    Rat.mkRat_mul_mkRat, one_mul]

/-- The used-token count returned by the selection loop is the initial
running total plus the token counts of the selected files. -/
theorem greedySelect_sum (budget : Nat) (l : List FileInfo) :
    ∀ used : Nat, (greedySelect budget l used).2
      = used + (((greedySelect budget l used).1).map (fun f => f.tokens)).sum := by
  induction l with
  | nil => intro used; simp [greedySelect]
  | cons f fs ih =>
    intro used
    by_cases h : used + f.tokens ≤ budget
    · simp only [greedySelect, if_pos h]
      rw [ih (used + f.tokens)]
      simp [List.map_cons, List.sum_cons]
      omega
    · simp [greedySelect, if_neg h]

/-- The selection loop never pushes a running total that is within the
budget beyond the budget. -/
theorem greedySelect_le (budget : Nat) (l : List FileInfo) :
    ∀ used : Nat, used ≤ budget → (greedySelect budget l used).2 ≤ budget := by
  induction l with
  | nil => intro used h; simpa [greedySelect] using h
  | cons f fs ih =>
    intro used h
    by_cases hfit : used + f.tokens ≤ budget
    · simp only [greedySelect, if_pos hfit]
      exact ih (used + f.tokens) hfit
    · simpa [greedySelect, if_neg hfit] using h

/-- The selection loop takes a prefix of its candidate list, and when a
suffix is left over its first element is exactly a candidate that does not
fit the remaining budget. -/
theorem greedySelect_cut (budget : Nat) (l : List FileInfo) :
    ∀ used : Nat, ∃ suf, l = (greedySelect budget l used).1 ++ suf
      ∧ ∀ hd, suf.head? = some hd → budget < (greedySelect budget l used).2 + hd.tokens := by
  induction l with
  | nil => intro used; exact ⟨[], by simp [greedySelect], by intro hd h; simp at h⟩
  | cons f fs ih =>
    intro used
    by_cases hfit : used + f.tokens ≤ budget
    · obtain ⟨suf, hpre, hcut⟩ := ih (used + f.tokens)
      refine ⟨suf, ?_, ?_⟩
      · simp only [greedySelect, if_pos hfit, List.cons_append]
        rw [← hpre]
      · intro hd hh
        simp only [greedySelect, if_pos hfit]
        exact hcut hd hh
    · refine ⟨f :: fs, by simp [greedySelect, if_neg hfit], ?_⟩
      intro hd hh
      simp only [List.head?_cons, Option.some.injEq] at hh
      subst hh
      simp only [greedySelect, if_neg hfit]
      omega

/-- The files a scan selects are a prefix of the relevance-sorted
candidate list, and any left-over suffix starts with a candidate that does
not fit the remaining budget. -/
theorem selectedPrefixCut (tok : String → Nat) (root : String) (entries : List FSEntry)
    (max_tokens : Nat) :
    ∃ suf, sortByScoreDesc (files_info tok root entries)
        = (scan_codebase tok root entries max_tokens).files ++ suf
      ∧ ∀ hd, suf.head? = some hd
          → max_tokens < (scan_codebase tok root entries max_tokens).total_tokens + hd.tokens := by
  simpa [scan_codebase] using
    greedySelect_cut max_tokens (sortByScoreDesc (files_info tok root entries)) 0

/-- The selected files form a sublist of the sorted candidate list. -/
theorem selected_sublist_sorted (tok : String → Nat) (root : String) (entries : List FSEntry)
    (max_tokens : Nat) :
    List.Sublist (scan_codebase tok root entries max_tokens).files
      (sortByScoreDesc (files_info tok root entries)) := by
  obtain ⟨suf, hpre, _⟩ := selectedPrefixCut tok root entries max_tokens
  rw [hpre]
  exact List.sublist_append_left _ _

/-- The sort of the scan orders files by descending relevance score. -/
theorem sortByScoreDesc_pairwise (l : List FileInfo) :
    (sortByScoreDesc l).Pairwise (fun a b => b.relevance_score ≤ a.relevance_score) := by
  haveI : IsTotal FileInfo (fun a b => b.relevance_score ≤ a.relevance_score) :=
    ⟨fun a b => le_total _ _⟩
  haveI : IsTrans FileInfo (fun a b => b.relevance_score ≤ a.relevance_score) :=
    ⟨fun a b c h₁ h₂ => le_trans h₂ h₁⟩
  exact List.sorted_insertionSort _ l

/-- The sort of the scan is a permutation of its input. -/
theorem sortByScoreDesc_perm (l : List FileInfo) : List.Perm (sortByScoreDesc l) l :=
  List.perm_insertionSort _ l

/-- Inserting a file into a list leaves the sublist of files of any fixed
score exactly as in consing it at the front: the insertion point is before
every strictly smaller score and after the equal ones. -/
theorem orderedInsert_filter_score (s : ℚ) (a : FileInfo) (l : List FileInfo) :
    (l.orderedInsert (fun x y => y.relevance_score ≤ x.relevance_score) a).filter
        (fun f => decide (f.relevance_score = s))
      = ((a :: l).filter (fun f => decide (f.relevance_score = s))) := by
  induction l with
  | nil => simp [List.orderedInsert]
  | cons b l ih =>
    by_cases hab : b.relevance_score ≤ a.relevance_score
    · simp [List.orderedInsert, hab]
    · simp only [List.orderedInsert, if_neg hab]
      rw [List.filter_cons, List.filter_cons, ih, List.filter_cons, List.filter_cons]
      by_cases hpa : a.relevance_score = s
      · by_cases hpb : b.relevance_score = s
        · have heq : b.relevance_score = a.relevance_score := by rw [hpa, hpb]
          exact absurd (le_of_eq heq) hab
        · simp [hpa, hpb]
      · simp [hpa]

/-- Stability of the sort: for every score value, the files carrying that
score appear in the sorted list exactly in their original order. -/
theorem sortByScoreDesc_filter_score (s : ℚ) (l : List FileInfo) :
    (sortByScoreDesc l).filter (fun f => decide (f.relevance_score = s))
      = l.filter (fun f => decide (f.relevance_score = s)) := by
  induction l with
  | nil => rfl
  | cons a l ih =>
    show ((sortByScoreDesc l).orderedInsert _ a).filter _ = _
    rw [orderedInsert_filter_score, List.filter_cons, ih, List.filter_cons]

/-- C1: for every directory tree, tokenizer and non-negative token budget,
the total_tokens of the scan result equals the sum of the token counts of
the selected files and never exceeds the budget, not even by one token. -/
theorem scan_budget_invariant (tok : String → Nat) (root : String) (entries : List FSEntry)
    (max_tokens : Nat) :
    (scan_codebase tok root entries max_tokens).total_tokens
        = (((scan_codebase tok root entries max_tokens).files).map (fun f => f.tokens)).sum
      ∧ (scan_codebase tok root entries max_tokens).total_tokens ≤ max_tokens := by
  constructor
  · simpa [scan_codebase] using
      greedySelect_sum max_tokens (sortByScoreDesc (files_info tok root entries)) 0
  · simpa [scan_codebase] using
      greedySelect_le max_tokens (sortByScoreDesc (files_info tok root entries)) 0 (Nat.zero_le _)

/-- C2: selection is a strict prefix cut of the relevance-ordered
candidate list: the selected files are a prefix of the sorted candidates,
every candidate after the cut is excluded no matter how small, and when
candidates remain the first rejected one exceeds the remaining budget. -/
theorem scan_greedy_cut (tok : String → Nat) (root : String) (entries : List FSEntry)
    (max_tokens : Nat) :
    ∃ suf, sortByScoreDesc (files_info tok root entries)
        = (scan_codebase tok root entries max_tokens).files ++ suf
      ∧ ∀ hd, suf.head? = some hd
          → max_tokens < (scan_codebase tok root entries max_tokens).total_tokens + hd.tokens :=
  selectedPrefixCut tok root entries max_tokens

/-- C3 counterexample: a file of 20,000 tokens gets the size multiplier
0.8 and not the 0.6 the claim states, because the source tests
`tokens > 5000` before `tokens > 10000`; accordingly a plain `x.py` python
file of 20,000 tokens scores 1.2 * 1.0 * 0.8 * 1.0 = 24/25 and not
1.2 * 0.6 = 18/25. -/
theorem sizeFactor_counterexample :
    sizeFactor 20000 = mkRat 8 10 ∧ sizeFactor 20000 ≠ mkRat 6 10
      ∧ calculate_relevance_score "x.py" "python" 20000 = mkRat 24 25
      ∧ calculate_relevance_score "x.py" "python" 20000 ≠ mkRat 18 25 :=
  ⟨by decide, by decide, by decide, by decide⟩

/-- C3 amended: the size multiplier is 1.1 below 100 tokens, 0.8 for every
count above 5,000 (including everything above 10,000, since the 0.6 branch
is tested after the 5,000 branch and is unreachable), and 1.0 otherwise; a
file of exactly 5,000 tokens gets 1.0. -/
theorem sizeFactor_amended (tokens : Nat) :
    sizeFactor tokens
        = (if tokens < 100 then mkRat 11 10 else if tokens > 5000 then mkRat 8 10 else 1)
      ∧ sizeFactor 5000 = 1 := by
  constructor
  · unfold sizeFactor sizeFactorT
    by_cases h1 : tokens < 100
    · simp [h1]
    · by_cases h2 : tokens > 5000
      · simp [h1, h2]
      · have h3 : ¬ tokens > 10000 := by omega
        simp only [if_neg h1, if_neg h2, if_neg h3]
        decide
  · decide

/-- C4 counterexample: in the concrete scenario the three files carry the
stipulated token counts, yet the scan selects two files with
total_tokens = 1000, refuting the claim that exactly one file is selected
with used_tokens = 800 and a top score of 1.56 = 39/25 (src/app.py gets
the entry-point filename bonus 1.5 the claim omits, and README.md still
fits into the 200 tokens the budget has left). -/
theorem scenario_counterexample :
    (files_info scenario_tok "/proj" scenario_entries).map (fun f => (f.relative_path, f.tokens))
        = [("src/app.py", 800), ("tests/test_app.py", 800), ("README.md", 200)]
      ∧ scenario_scan.files.length = 2 ∧ scenario_scan.total_tokens = 1000
      ∧ ¬ (scenario_scan.files.length = 1 ∧ scenario_scan.total_tokens = 800
            ∧ (scenario_scan.files.map (fun f => f.relevance_score)).head? = some (mkRat 39 25)) :=
  ⟨by decide, by decide, by decide, by decide⟩

/-- C4 amended: the scenario scan ranks src/app.py first with score
2.34 = 117/50 (language 1.2, directory 1.3, size 1.0, filename 1.5 for the
entry-point name app.py), selects src/app.py and then README.md whose 200
tokens exactly fill the rest of the budget, and returns
used_tokens = 1000 with scanned_count = 3. -/
theorem scenario_amended :
    scenario_scan.files.map (fun f => f.relative_path) = ["src/app.py", "README.md"]
      ∧ scenario_scan.total_tokens = 1000
      ∧ scenario_scan.scanned_files = 3
      ∧ (scenario_scan.files.map (fun f => f.relevance_score)).head? = some ((117 : ℚ)/50) := by
  refine ⟨by decide, by decide, by decide, ?_⟩
  have h : ((117 : ℚ)/50) = mkRat 117 50 := by
    rw [Rat.mkRat_eq_div]; norm_num
  rw [h]
  decide

/-- C5: every file record of any scan result has an extension from the
allow-list, a relative path free of deny-listed substrings, content whose
stripped form is non-empty, and a token count of at most 50,000. -/
theorem scan_filter_completeness (tok : String → Nat) (root : String) (entries : List FSEntry)
    (max_tokens : Nat) (f : FileInfo)
    (hf : f ∈ (scan_codebase tok root entries max_tokens).files) :
    CODE_EXTENSIONS.contains (strToLower (pathSuffix f.relative_path)) = true
      ∧ (SKIP_PATTERNS.any (fun p => strContains f.relative_path p)) = false
      ∧ (f.content.toList.any (fun c => !c.isWhitespace)) = true
      ∧ f.tokens ≤ 50000 := by
  have hsorted : f ∈ sortByScoreDesc (files_info tok root entries) :=
    (selected_sublist_sorted tok root entries max_tokens).mem hf
  have hinfo : f ∈ files_info tok root entries :=
    (sortByScoreDesc_perm (files_info tok root entries)).mem_iff.mp hsorted
  simp only [files_info, List.mem_map, List.mem_filter] at hinfo
  obtain ⟨e, ⟨_, hkeep⟩, hfe⟩ := hinfo
  simp only [keepFile, Bool.and_eq_true, Bool.not_eq_true', decide_eq_true_eq] at hkeep
  obtain ⟨⟨⟨⟨⟨⟨_, _⟩, hskip⟩, hext⟩, _⟩, hws⟩, htok⟩ := hkeep
  subst hfe
  exact ⟨hext, hskip, hws, htok⟩

/-- C5 witness: the filter-completeness theorem applied to the file record
of a concrete one-file scan. -/
theorem scan_filter_completeness_witness :
    CODE_EXTENSIONS.contains (strToLower (pathSuffix witness_file.relative_path)) = true
      ∧ (SKIP_PATTERNS.any (fun p => strContains witness_file.relative_path p)) = false
      ∧ (witness_file.content.toList.any (fun c => !c.isWhitespace)) = true
      ∧ witness_file.tokens ≤ 50000 :=
  scan_filter_completeness count_tokens "/w" [witness_entry] 900000 witness_file (by decide)

/-- C6: the selected files are ordered by descending relevance score, and
for every score value the selected files carrying it keep their original
directory-walk encounter order (the sort is stable and the budget cut
preserves order). -/
theorem selection_ordering (tok : String → Nat) (root : String) (entries : List FSEntry)
    (max_tokens : Nat) :
    ((scan_codebase tok root entries max_tokens).files).Pairwise
        (fun a b => b.relevance_score ≤ a.relevance_score)
      ∧ ∀ s : ℚ, List.Sublist
          (((scan_codebase tok root entries max_tokens).files).filter
            (fun f => decide (f.relevance_score = s)))
          ((files_info tok root entries).filter (fun f => decide (f.relevance_score = s))) := by
  have hsub := selected_sublist_sorted tok root entries max_tokens
  constructor
  · exact (sortByScoreDesc_pairwise (files_info tok root entries)).sublist hsub
  · intro s
    have := hsub.filter (fun f => decide (f.relevance_score = s))
    rwa [sortByScoreDesc_filter_score] at this

/-- C7 counterexample: on a five-character text the fallback tokenizer
returns 5 / 4 = 1 while the ceiling of 5 / 4 is 2, so the fallback is the
floor of the length over four, not the ceiling the claim states. -/
theorem count_tokens_counterexample :
    count_tokens "aaaaa" = 1 ∧ ("aaaaa".length + 3) / 4 = 2
      ∧ count_tokens "aaaaa" ≠ ("aaaaa".length + 3) / 4 :=
  ⟨by decide, by decide, by decide⟩

/-- C7 amended: the fallback tokenizer returns the character length of the
text divided by four rounding down, the non-negative integer k with
4k ≤ length < 4k + 4. -/
theorem count_tokens_floor (text : String) :
    count_tokens text = text.length / 4
      ∧ 4 * count_tokens text ≤ text.length
      ∧ text.length < 4 * count_tokens text + 4 := by
  unfold count_tokens
  refine ⟨rfl, ?_, ?_⟩ <;> omega

/-- C8: loading a codebase whose project path does not exist reports the
input error, attempts no scan, and returns the previously held session
state unchanged. -/
theorem load_nonexistent_path_atomic (tok : String → Nat) (entries : List FSEntry)
    (project_path : String) (max_tokens : Nat) (st : ServerState) :
    handle_load_codebase false tok entries project_path max_tokens st
      = (LoadOutcome.inputError project_path, st) := rfl

/-- Tree lines survive the tree-line filter unchanged. -/
theorem filter_isTreeLine_map_treeLine (fs : List FileInfo) :
    (fs.map Chunk.treeLine).filter isTreeLine = fs.map Chunk.treeLine := by
  induction fs with
  | nil => rfl
  | cons f fs ih => simp [isTreeLine, ih]

/-- Content blocks survive the content-block filter unchanged. -/
theorem filter_isFileBlock_map_fileBlock (fs : List FileInfo) :
    (fs.map Chunk.fileBlock).filter isFileBlock = fs.map Chunk.fileBlock := by
  induction fs with
  | nil => rfl
  | cons f fs ih => simp [isFileBlock, ih]

/-- Content blocks are not tree lines. -/
theorem filter_isTreeLine_map_fileBlock (fs : List FileInfo) :
    (fs.map Chunk.fileBlock).filter isTreeLine = [] := by
  induction fs with
  | nil => rfl
  | cons f fs ih => simp [isTreeLine, ih]

/-- Tree lines are not content blocks. -/
theorem filter_isFileBlock_map_treeLine (fs : List FileInfo) :
    (fs.map Chunk.treeLine).filter isFileBlock = [] := by
  induction fs with
  | nil => rfl
  | cons f fs ih => simp [isFileBlock, ih]

/-- Tree lines are not omitted-count lines. -/
theorem filter_isMoreLine_map_treeLine (fs : List FileInfo) :
    (fs.map Chunk.treeLine).filter isMoreLine = [] := by
  induction fs with
  | nil => rfl
  | cons f fs ih => simp [isMoreLine, ih]

/-- Content blocks are not omitted-count lines. -/
theorem filter_isMoreLine_map_fileBlock (fs : List FileInfo) :
    (fs.map Chunk.fileBlock).filter isMoreLine = [] := by
  induction fs with
  | nil => rfl
  | cons f fs ih => simp [isMoreLine, ih]

/-- C9: the serialized document shows at most 20 file-tree entries plus at
most one omitted-count line, present exactly when more than 20 files were
selected; the contents section lists every selected file exactly once in
selection order, entirely after the tree section; and the fixed
instructional footer is always the last block. -/
theorem serialization_shape (d : ScanResult) :
    ((contextChunks d).filter isTreeLine).length ≤ 20
      ∧ ((contextChunks d).filter isMoreLine).length ≤ 1
      ∧ (((contextChunks d).filter isMoreLine).length = 1 ↔ 20 < d.files.length)
      ∧ (contextChunks d).filter isFileBlock = d.files.map Chunk.fileBlock
      ∧ (∃ front back, contextChunks d = front ++ back
          ∧ (∀ c ∈ front, isFileBlock c = false) ∧ (∀ c ∈ back, isTreeLine c = false))
      ∧ (contextChunks d).getLast? = some Chunk.footer := by
  refine ⟨?_, ?_, ?_, ?_, ?_, ?_⟩
  · simp only [contextChunks, List.filter_append, filter_isTreeLine_map_treeLine,
      filter_isTreeLine_map_fileBlock]
    by_cases h : d.files.length > 20 <;>
      simp [h, isTreeLine, List.filter_cons, List.length_take]
  · simp only [contextChunks, List.filter_append, filter_isMoreLine_map_treeLine,
      filter_isMoreLine_map_fileBlock]
    by_cases h : d.files.length > 20 <;>
      simp [h, isMoreLine, List.filter_cons]
  · simp only [contextChunks, List.filter_append, filter_isMoreLine_map_treeLine,
      filter_isMoreLine_map_fileBlock]
    by_cases h : d.files.length > 20 <;>
      simp [h, isMoreLine, List.filter_cons]
  · simp only [contextChunks, List.filter_append, filter_isFileBlock_map_fileBlock,
      filter_isFileBlock_map_treeLine]
    by_cases h : d.files.length > 20 <;>
      simp [h, isFileBlock, List.filter_cons]
  · refine ⟨[Chunk.header d.project_path d.total_files d.scanned_files d.total_tokens,
        Chunk.treeHeader] ++ (d.files.take 20).map Chunk.treeLine
        ++ (if d.files.length > 20 then [Chunk.moreLine (d.files.length - 20)] else []),
      [Chunk.contentsHeader] ++ d.files.map Chunk.fileBlock ++ [Chunk.footer], ?_, ?_, ?_⟩
    · simp [contextChunks]
    · intro c hc
      simp only [List.mem_append, List.mem_cons, List.mem_map, List.not_mem_nil,
        or_false, false_or] at hc
      rcases hc with ((h | h) | ⟨f, _, rfl⟩) | h
      · subst h; rfl
      · subst h; rfl
      · rfl
      · by_cases h20 : d.files.length > 20
        · rw [if_pos h20] at h
          simp only [List.mem_cons, List.not_mem_nil, or_false] at h
          subst h; rfl
        · rw [if_neg h20] at h
          exact absurd h (List.not_mem_nil c)
    · intro c hc
      simp only [List.mem_append, List.mem_cons, List.mem_map, List.not_mem_nil,
        or_false, false_or] at hc
      rcases hc with (h | ⟨f, _, rfl⟩) | h
      · subst h; rfl
      · rfl
      · subst h; rfl
  · simp only [contextChunks]
    rw [List.getLast?_concat]

/-- C10: the hidden-entry filter inspects only the final name component of
a path, so a file inside a hidden directory whose own name is not hidden
(.hidden/util.py) passes the hidden-file check and, satisfying the
extension, deny-list, non-empty-content and size filters, appears in the
scan result. -/
theorem hidden_directory_file_included :
    strStartsWith (pathName ".hidden/util.py") "." = false
      ∧ strStartsWith ".hidden/util.py" "." = true
      ∧ (SKIP_PATTERNS.any (fun p => strContains ".hidden/util.py" p)) = false
      ∧ (scan_codebase count_tokens "/r" hidden_entries 900000).files.map
          (fun f => f.relative_path) = [".hidden/util.py"] :=
  ⟨by decide, by decide, by decide, by decide⟩

end EnhancedServer
